import Mathlib

/-!
Verification development for the tutoring-chat backend (conversation threads,
their flat persisted records, and the template-based tutor response generator).

The embedding models:
* timezone-aware UTC instants (`DateTime`) together with the ISO-8601
  rendering produced by `datetime.isoformat()` and the parser
  `datetime.fromisoformat()` used during load (string level, faithful to the
  emitted grammar `YYYY-MM-DDTHH:MM:SS[.ffffff]+00:00`; the calendar
  day-of-month check is approximated by `day <= 31`);
* JSON values at the abstract-syntax level (`JVal`), standing for the
  JSON-encoded string fields of the persisted record (`json.dumps` composed
  with `json.loads` is the identity at this level);
* the persisted record shape (`ConversationThreadRedis`), the save encoding
  (`save_thread_record`) and the load decoding (`decodeThreadRecord`,
  `get_thread`) from ConversationService, including the polymorphic message
  reconstruction rule keyed on a non-null `action` field;
* the unconfigured (template fallback) TutorService response generation, and
  the orchestrator operations of ConversationService.
-/

set_option maxHeartbeats 1000000

namespace TutorChat

/-- A timezone-aware UTC instant, as the `datetime` values flowing through the
service (all constructed with `timezone.utc`). -/
structure DateTime where
  year : Nat
  month : Nat
  day : Nat
  hour : Nat
  minute : Nat
  second : Nat
  microsecond : Nat
  deriving DecidableEq, Repr

/-- The ranges a real `datetime` value satisfies (month lengths approximated
by 31). -/
def ValidDateTime (t : DateTime) : Prop :=
  1 ≤ t.year ∧ t.year ≤ 9999 ∧ 1 ≤ t.month ∧ t.month ≤ 12 ∧ 1 ≤ t.day ∧ t.day ≤ 31 ∧
    t.hour ≤ 23 ∧ t.minute ≤ 59 ∧ t.second ≤ 59 ∧ t.microsecond ≤ 999999

instance (t : DateTime) : Decidable (ValidDateTime t) :=
  inferInstanceAs (Decidable (_ ∧ _ ∧ _ ∧ _ ∧ _ ∧ _ ∧ _ ∧ _ ∧ _ ∧ _))

/-- Decimal digits of a natural number, most significant first (fuel-based so
that it evaluates by kernel reduction). -/
def natDigitsAux : Nat → Nat → List Char
  | 0, _ => []
  | fuel + 1, n =>
    if n < 10 then [Nat.digitChar n]
    else natDigitsAux fuel (n / 10) ++ [Nat.digitChar (n % 10)]

/-- Decimal rendering of a natural number as a character list. -/
def natDigits (n : Nat) : List Char := natDigitsAux (n + 1) n

/-- Zero-padded decimal rendering to (at least) width `w`, as produced by the
`%0Nd` fields of `datetime.isoformat`. -/
def padDec (w n : Nat) : List Char :=
  List.replicate (w - (natDigits n).length) '0' ++ natDigits n

/-- Numeric value of a digit character. -/
def digitVal (c : Char) : Nat := c.toNat - 48

/-- Value of a most-significant-first digit string. -/
def readVal (cs : List Char) : Nat := cs.foldl (fun a c => a * 10 + digitVal c) 0

/-- Read exactly `w` leading digit characters as a number, returning the rest
of the input; fails if fewer than `w` digits are available. -/
def readFixed (w : Nat) (cs : List Char) : Option (Nat × List Char) :=
  if (cs.take w).length = w ∧ (cs.take w).all Char.isDigit then
    some (readVal (cs.take w), cs.drop w)
  else none

/-- Require a single literal character at the head of the input. -/
def expectChar (c : Char) : List Char → Option (List Char)
  | [] => none
  | x :: rest => if x = c then some rest else none

/-- The optional fractional-seconds part plus the fixed UTC offset that
`datetime.isoformat()` appends for `timezone.utc`-aware values. -/
def isoTail (us : Nat) : List Char :=
  (if us = 0 then [] else '.' :: padDec 6 us) ++ ['+', '0', '0', ':', '0', '0']

/-- Character list produced by `datetime.isoformat()` on a UTC-aware value:
`YYYY-MM-DDTHH:MM:SS[.ffffff]+00:00`. -/
def isoformatChars (t : DateTime) : List Char :=
  padDec 4 t.year ++ '-' :: (padDec 2 t.month ++ '-' :: (padDec 2 t.day ++ 'T' ::
    (padDec 2 t.hour ++ ':' :: (padDec 2 t.minute ++ ':' ::
      (padDec 2 t.second ++ isoTail t.microsecond)))))

/-- The ISO-8601 string rendering used by `_save_thread`. -/
def isoformat (t : DateTime) : String := String.mk (isoformatChars t)

/-- Optional fractional seconds: a dot followed by six digits, else nothing. -/
def readMicro (cs : List Char) : Option (Nat × List Char) :=
  match cs with
  | c :: rest => if c = '.' then readFixed 6 rest else some (0, cs)
  | [] => some (0, [])

/-- Final step of ISO parsing: the UTC offset and the range validation that
`datetime` construction performs. -/
def finishIso (y mo d h mi s us : Nat) : List Char → Option DateTime
  | ['+', '0', '0', ':', '0', '0'] =>
    if 1 ≤ y ∧ y ≤ 9999 ∧ 1 ≤ mo ∧ mo ≤ 12 ∧ 1 ≤ d ∧ d ≤ 31 ∧
        h ≤ 23 ∧ mi ≤ 59 ∧ s ≤ 59 ∧ us ≤ 999999 then
      some ⟨y, mo, d, h, mi, s, us⟩
    else none
  | _ => none

/-- Parser for the timestamp strings stored by `_save_thread`, as
`datetime.fromisoformat` reads them back in `get_thread`. -/
def fromisoformatChars (cs : List Char) : Option DateTime :=
  (readFixed 4 cs).bind fun (y, cs) =>
  (expectChar '-' cs).bind fun cs =>
  (readFixed 2 cs).bind fun (mo, cs) =>
  (expectChar '-' cs).bind fun cs =>
  (readFixed 2 cs).bind fun (d, cs) =>
  (expectChar 'T' cs).bind fun cs =>
  (readFixed 2 cs).bind fun (h, cs) =>
  (expectChar ':' cs).bind fun cs =>
  (readFixed 2 cs).bind fun (mi, cs) =>
  (expectChar ':' cs).bind fun cs =>
  (readFixed 2 cs).bind fun (s, cs) =>
  (readMicro cs).bind fun (us, cs) =>
  finishIso y mo d h mi s us cs

/-- String-level `datetime.fromisoformat`. -/
def fromisoformat (s : String) : Option DateTime := fromisoformatChars s.data

theorem natDigitsAux_fuel : ∀ (n f₁ f₂ : Nat), n < f₁ → n < f₂ →
    natDigitsAux f₁ n = natDigitsAux f₂ n := by
  intro n
  induction n using Nat.strong_induction_on with
  | _ n ih =>
    intro f₁ f₂ h₁ h₂
    rcases f₁ with _ | g₁
    · omega
    rcases f₂ with _ | g₂
    · omega
    simp only [natDigitsAux]
    by_cases h : n < 10
    · simp [h]
    · simp only [if_neg h]
      have hd : n / 10 < n := Nat.div_lt_self (by omega) (by omega)
      rw [ih (n / 10) hd g₁ g₂ (by omega) (by omega)]

theorem natDigits_eq (n : Nat) :
    natDigits n = if n < 10 then [Nat.digitChar n]
      else natDigits (n / 10) ++ [Nat.digitChar (n % 10)] := by
  show natDigitsAux (n + 1) n = _
  simp only [natDigitsAux]
  by_cases h : n < 10
  · simp [h]
  · simp only [if_neg h]
    have hd : n / 10 < n := Nat.div_lt_self (by omega) (by omega)
    rw [natDigitsAux_fuel (n / 10) n (n / 10 + 1) (by omega) (by omega)]
    rfl

theorem digitChar_isDigit {n : Nat} (h : n < 10) : (Nat.digitChar n).isDigit = true := by
  interval_cases n <;> decide

theorem digitVal_digitChar {n : Nat} (h : n < 10) : digitVal (Nat.digitChar n) = n := by
  interval_cases n <;> decide

theorem natDigits_all_digit (n : Nat) : ∀ c ∈ natDigits n, c.isDigit = true := by
  induction n using Nat.strong_induction_on with
  | _ n ih =>
    rw [natDigits_eq]
    by_cases h : n < 10
    · simp only [if_pos h, List.mem_singleton]
      rintro c rfl
      exact digitChar_isDigit h
    · simp only [if_neg h, List.mem_append, List.mem_singleton]
      have hd : n / 10 < n := Nat.div_lt_self (by omega) (by omega)
      rintro c (hc | rfl)
      · exact ih (n / 10) hd c hc
      · exact digitChar_isDigit (Nat.mod_lt _ (by omega))

theorem natDigits_length_le : ∀ (n w : Nat), 1 ≤ w → n < 10 ^ w →
    (natDigits n).length ≤ w := by
  intro n
  induction n using Nat.strong_induction_on with
  | _ n ih =>
    intro w hw h
    rw [natDigits_eq]
    by_cases h10 : n < 10
    · simp only [if_pos h10, List.length_singleton]
      exact hw
    · simp only [if_neg h10, List.length_append, List.length_singleton]
      have hd : n / 10 < n := Nat.div_lt_self (by omega) (by omega)
      have hw2 : 2 ≤ w := by
        rcases Nat.lt_or_ge w 2 with hlt | hge
        · have hw1 : w = 1 := by omega
          rw [hw1, pow_one] at h
          omega
        · exact hge
      have hbound : n / 10 < 10 ^ (w - 1) := by
        have heq : 10 ^ (w - 1) * 10 = 10 ^ w := by
          rw [← pow_succ]
          congr 1
          omega
        exact Nat.div_lt_of_lt_mul (by omega)
      have := ih (n / 10) hd (w - 1) (by omega) hbound
      omega

theorem readVal_append_one (cs : List Char) (c : Char) :
    readVal (cs ++ [c]) = readVal cs * 10 + digitVal c := by
  simp [readVal, List.foldl_append]

theorem readVal_natDigits (n : Nat) : readVal (natDigits n) = n := by
  induction n using Nat.strong_induction_on with
  | _ n ih =>
    rw [natDigits_eq]
    by_cases h : n < 10
    · simp only [if_pos h]
      have h1 : readVal ([] ++ [Nat.digitChar n]) = n := by
        rw [readVal_append_one, digitVal_digitChar h]
        simp [readVal]
      simpa using h1
    · simp only [if_neg h]
      have hd : n / 10 < n := Nat.div_lt_self (by omega) (by omega)
      rw [readVal_append_one, ih (n / 10) hd, digitVal_digitChar (Nat.mod_lt _ (by omega))]
      omega

theorem readVal_replicate_zero (k : Nat) (cs : List Char) :
    readVal (List.replicate k '0' ++ cs) = readVal cs := by
  induction k with
  | zero => simp
  | succ k ih =>
    have h0 : digitVal '0' = 0 := by decide
    have step : readVal ('0' :: (List.replicate k '0' ++ cs)) =
        readVal (List.replicate k '0' ++ cs) := by
      simp [readVal, List.foldl_cons, h0]
    rw [List.replicate_succ, List.cons_append, step, ih]

theorem padDec_length {w n : Nat} (hw : 1 ≤ w) (h : n < 10 ^ w) :
    (padDec w n).length = w := by
  have := natDigits_length_le n w hw h
  simp only [padDec, List.length_append, List.length_replicate]
  omega

theorem padDec_all_digit (w n : Nat) : (padDec w n).all Char.isDigit = true := by
  rw [List.all_eq_true]
  intro c hc
  rw [padDec, List.mem_append] at hc
  rcases hc with hc | hc
  · rw [List.eq_of_mem_replicate hc]
    decide
  · exact natDigits_all_digit n c hc

theorem readVal_padDec (w n : Nat) : readVal (padDec w n) = n := by
  rw [padDec, readVal_replicate_zero, readVal_natDigits]

theorem readFixed_padDec {w n : Nat} (hw : 1 ≤ w) (h : n < 10 ^ w) (rest : List Char) :
    readFixed w (padDec w n ++ rest) = some (n, rest) := by
  have hl : (padDec w n).length = w := padDec_length hw h
  have htake : (padDec w n ++ rest).take w = padDec w n := List.take_left' hl
  have hdrop : (padDec w n ++ rest).drop w = rest := List.drop_left' hl
  rw [readFixed, htake, hdrop, if_pos ⟨hl, padDec_all_digit w n⟩, readVal_padDec]

theorem expectChar_cons (c : Char) (rest : List Char) :
    expectChar c (c :: rest) = some rest := by
  simp [expectChar]

theorem optSomeBind {α β : Type} (a : α) (f : α → Option β) : (some a).bind f = f a := rfl

theorem optNoneBind {α β : Type} (f : α → Option β) : (none : Option α).bind f = none := rfl

theorem readMicro_tz : readMicro ['+', '0', '0', ':', '0', '0'] =
    some (0, ['+', '0', '0', ':', '0', '0']) := rfl

theorem readMicro_frac (cs : List Char) : readMicro ('.' :: cs) = readFixed 6 cs := rfl

theorem finishIso_tz (y mo d h mi s us : Nat) :
    finishIso y mo d h mi s us ['+', '0', '0', ':', '0', '0'] =
      if 1 ≤ y ∧ y ≤ 9999 ∧ 1 ≤ mo ∧ mo ≤ 12 ∧ 1 ≤ d ∧ d ≤ 31 ∧
          h ≤ 23 ∧ mi ≤ 59 ∧ s ≤ 59 ∧ us ≤ 999999 then
        some ⟨y, mo, d, h, mi, s, us⟩
      else none := rfl

/-- Parsing the rendering of a valid UTC instant recovers it exactly. -/
theorem fromisoformat_isoformat (t : DateTime) (h : ValidDateTime t) :
    fromisoformat (isoformat t) = some t := by
  obtain ⟨y, mo, dd, hh, mi, ss, us⟩ := t
  simp only [ValidDateTime] at h
  obtain ⟨h1, h2, h3, h4, h5, h6, h7, h8, h9, h10⟩ := h
  have p4 : (10 : Nat) ^ 4 = 10000 := by norm_num
  have p2 : (10 : Nat) ^ 2 = 100 := by norm_num
  have p6 : (10 : Nat) ^ 6 = 1000000 := by norm_num
  have hy : y < 10 ^ 4 := by omega
  have hmo : mo < 10 ^ 2 := by omega
  have hd : dd < 10 ^ 2 := by omega
  have hhh : hh < 10 ^ 2 := by omega
  have hmi : mi < 10 ^ 2 := by omega
  have hs : ss < 10 ^ 2 := by omega
  have hus : us < 10 ^ 6 := by omega
  show fromisoformatChars
      (String.mk (isoformatChars ⟨y, mo, dd, hh, mi, ss, us⟩)).data = _
  have hdata : (String.mk (isoformatChars ⟨y, mo, dd, hh, mi, ss, us⟩)).data =
      isoformatChars ⟨y, mo, dd, hh, mi, ss, us⟩ := rfl
  rw [hdata, isoformatChars, fromisoformatChars]
  simp only [readFixed_padDec (by omega) hy, readFixed_padDec (by omega) hmo,
    readFixed_padDec (by omega) hd, readFixed_padDec (by omega) hhh,
    readFixed_padDec (by omega) hmi, readFixed_padDec (by omega) hs,
    expectChar_cons, optSomeBind]
  by_cases hzero : us = 0
  · subst hzero
    rw [isoTail, if_pos rfl, List.nil_append, readMicro_tz, optSomeBind]
    show finishIso y mo dd hh mi ss 0 ['+', '0', '0', ':', '0', '0'] =
      some ⟨y, mo, dd, hh, mi, ss, 0⟩
    rw [finishIso_tz, if_pos (by omega)]
  · rw [isoTail, if_neg hzero, List.cons_append, readMicro_frac,
      readFixed_padDec (by omega) hus, optSomeBind]
    show finishIso y mo dd hh mi ss us ['+', '0', '0', ':', '0', '0'] =
      some ⟨y, mo, dd, hh, mi, ss, us⟩
    rw [finishIso_tz, if_pos (by omega)]

/-! ## JSON values and the message / thread data model -/

/-- JSON values at the abstract-syntax level. Numbers are carried as rationals
(the services never compute on them, only store and compare them). -/
inductive JVal where
  | jnull
  | jbool (b : Bool)
  | jnum (q : Rat)
  | jstr (s : String)
  | jarr (elems : List JVal)
  | jobj (fields : List (String × JVal))

/-- Field lookup in a decoded JSON object (`dict.get`); keys are unique in a
Python dict, so first-match lookup is faithful. -/
def jLookup (k : String) : List (String × JVal) → Option JVal
  | [] => none
  | (a, v) :: rest => if k = a then some v else jLookup k rest

/-- The `action` literal tag of a student message. -/
inductive StudentAction where
  | question
  | answer
  | chat
  | regenerate
  deriving DecidableEq, Repr

/-- String form of the action tag, as serialized by `model_dump`. -/
def StudentAction.toStr : StudentAction → String
  | .question => "question"
  | .answer => "answer"
  | .chat => "chat"
  | .regenerate => "regenerate"

/-- `StudentMessage` model (models/chat.py). -/
structure StudentMessage where
  conversation_id : String
  content : String
  action : StudentAction
  timestamp : DateTime
  deriving DecidableEq, Repr

/-- `TutorMessage` model (models/chat.py); `feedback` is a string-keyed float
map, kept as an association list in serialization order. -/
structure TutorMessage where
  conversation_id : String
  content : String
  feedback : List (String × Rat)
  timestamp : DateTime
  deriving DecidableEq, Repr

/-- A message in a thread: the tagged union of the two message shapes. -/
inductive Message where
  | student (m : StudentMessage)
  | tutor (m : TutorMessage)
  deriving DecidableEq, Repr

def Message.conversationId : Message → String
  | .student m => m.conversation_id
  | .tutor m => m.conversation_id

def Message.tsOf : Message → DateTime
  | .student m => m.timestamp
  | .tutor m => m.timestamp

def Message.isStudentB : Message → Bool
  | .student _ => true
  | .tutor _ => false

def Message.isTutorB : Message → Bool
  | .student _ => false
  | .tutor _ => true

/-- `ConversationThread` model (models/chat.py). -/
structure ConversationThread where
  id : String
  student_id : String
  usmos : List String
  content_id : String
  messages : List Message
  created_at : DateTime
  updated_at : DateTime
  deriving DecidableEq, Repr

/-- `ContentResponse` model (models/chat.py). -/
structure ContentResponse where
  content_id : String
  usmos : List String
  problem : String
  answer : String
  explanation : Option String
  deriving DecidableEq, Repr

/-- The flat persisted record `ConversationThreadRedis` (models/chat.py): the
three JSON-encoded string fields are carried at the JSON-value level, the two
timestamps as the literal ISO strings. -/
structure ConversationThreadRedis where
  id : String
  student_id : String
  usmos_json : JVal
  content_ids : JVal
  messages : JVal
  created_at : String
  updated_at : String
  is_active : Bool

/-! ## Save path (`ConversationService._save_thread`) -/

/-- Encoding of a feedback map as a JSON object. -/
def encodeFeedback (fb : List (String × Rat)) : List (String × JVal) :=
  fb.map (fun p => (p.1, JVal.jnum p.2))

/-- `message.model_dump()` with the timestamp rewritten to its ISO string, as
`_save_thread` builds each entry of the `messages` JSON array. Field order is
the declaration order of the pydantic models. -/
def encodeMessage : Message → JVal
  | .student m => .jobj [("conversation_id", .jstr m.conversation_id),
      ("content", .jstr m.content),
      ("action", .jstr m.action.toStr),
      ("timestamp", .jstr (isoformat m.timestamp))]
  | .tutor m => .jobj [("conversation_id", .jstr m.conversation_id),
      ("content", .jstr m.content),
      ("feedback", .jobj (encodeFeedback m.feedback)),
      ("timestamp", .jstr (isoformat m.timestamp))]

/-- The persisted record `_save_thread` writes for a thread: `usmos` and the
one-element `content_ids` list JSON-encoded, messages as the encoded array,
timestamps in ISO form, `is_active` always true. -/
def save_thread_record (t : ConversationThread) : ConversationThreadRedis :=
  { id := t.id
    student_id := t.student_id
    usmos_json := .jarr (t.usmos.map .jstr)
    content_ids := .jarr [.jstr t.content_id]
    messages := .jarr (t.messages.map encodeMessage)
    created_at := isoformat t.created_at
    updated_at := isoformat t.updated_at
    is_active := true }

/-- The external key-value store, keyed by the record primary key. -/
abbrev Store := List (String × ConversationThreadRedis)

/-- Primary-key read (`ConversationThreadRedis.get`). -/
def storeLookup : Store → String → Option ConversationThreadRedis
  | [], _ => none
  | (k, r) :: rest, tid => if tid = k then some r else storeLookup rest tid

/-- `_save_thread`: write the encoded record under the thread id, replacing
any previous record for that key (newest record shadows older ones). -/
def save_thread (store : Store) (t : ConversationThread) : Store :=
  (t.id, save_thread_record t) :: store

/-! ## Load path (`ConversationService.get_thread`) -/

/-- Decode the `action` value through the `Literal` validation of
`StudentMessage`; any other value is a validation failure. -/
def decodeAction : JVal → Option StudentAction
  | .jstr "question" => some .question
  | .jstr "answer" => some .answer
  | .jstr "chat" => some .chat
  | .jstr "regenerate" => some .regenerate
  | _ => none

/-- A required string field of a message mapping (pydantic `str`: accepts
only a string, `None` and other shapes are validation failures). -/
def decodeStrField (fields : List (String × JVal)) (k : String) : Option String :=
  match jLookup k fields with
  | some (.jstr s) => some s
  | _ => none

/-- The `timestamp` field: absent means the `default_factory` current instant;
a string is parsed with `fromisoformat`; any other shape fails validation. -/
def decodeTimestampField (fields : List (String × JVal)) (now : DateTime) : Option DateTime :=
  match jLookup "timestamp" fields with
  | none => some now
  | some (.jstr s) => fromisoformat s
  | some _ => none

/-- Entries of a feedback JSON object as a string-to-number map; a non-numeric
value is a validation failure. -/
def decodeFeedbackEntries : List (String × JVal) → Option (List (String × Rat))
  | [] => some []
  | (k, .jnum q) :: rest => (decodeFeedbackEntries rest).map ((k, q) :: ·)
  | _ => none

/-- The `feedback` field of a tutor message: absent means the default empty
map; an object is decoded entrywise; any other shape fails validation. -/
def decodeFeedbackField (fields : List (String × JVal)) : Option (List (String × Rat)) :=
  match jLookup "feedback" fields with
  | none => some []
  | some (.jobj entries) => decodeFeedbackEntries entries
  | some _ => none

/-- `StudentMessage(**message)`: required fields validated, extra keys
ignored. -/
def decodeStudentMessage (fields : List (String × JVal)) (now : DateTime) :
    Option StudentMessage :=
  (decodeStrField fields "conversation_id").bind fun cid =>
  (decodeStrField fields "content").bind fun content =>
  (match jLookup "action" fields with
   | some v => decodeAction v
   | none => none).bind fun act =>
  (decodeTimestampField fields now).bind fun ts =>
  some { conversation_id := cid, content := content, action := act, timestamp := ts }

/-- `TutorMessage(**message)`: required fields validated, extra keys
ignored. -/
def decodeTutorMessage (fields : List (String × JVal)) (now : DateTime) :
    Option TutorMessage :=
  (decodeStrField fields "conversation_id").bind fun cid =>
  (decodeStrField fields "content").bind fun content =>
  (decodeFeedbackField fields).bind fun fb =>
  (decodeTimestampField fields now).bind fun ts =>
  some { conversation_id := cid, content := content, feedback := fb, timestamp := ts }

/-- The polymorphic reconstruction rule of `get_thread`: a mapping with a
non-null `action` value decodes as a `StudentMessage`, otherwise (absent or
null `action`) as a `TutorMessage`; a non-mapping element is a failure. -/
def decodeMessage (j : JVal) (now : DateTime) : Option Message :=
  match j with
  | .jobj fields =>
    match jLookup "action" fields with
    | none => (decodeTutorMessage fields now).map .tutor
    | some .jnull => (decodeTutorMessage fields now).map .tutor
    | some _ => (decodeStudentMessage fields now).map .student
  | _ => none

/-- The message-decoding loop of `get_thread`: the first failing element
fails the whole load. -/
def decodeMessages (now : DateTime) : List JVal → Option (List Message)
  | [] => some []
  | j :: rest => (decodeMessage j now).bind fun m =>
      (decodeMessages now rest).map (m :: ·)

/-- Decode a JSON array of strings (the `usmos` list validation). -/
def decodeStrList : List JVal → Option (List String)
  | [] => some []
  | .jstr s :: rest => (decodeStrList rest).map (s :: ·)
  | _ => none

/-- `content_ids[0] if content_ids else None`, followed by the `str`
validation of `content_id` in `ConversationThread`: an empty sequence yields
`None`, which the required field rejects; a non-empty JSON array contributes
its first element (which must be a string); indexing a non-empty JSON string
yields its first character (Python string indexing); anything else raises and
so fails the load. -/
def decodeContentIdsField : JVal → Option String
  | .jarr [] => none
  | .jarr (first :: _) =>
    match first with
    | .jstr s => some s
    | _ => none
  | .jstr s =>
    match s.data with
    | [] => none
    | c :: _ => some (String.mk [c])
  | _ => none

/-- The decode half of `get_thread` (everything after the record has been
fetched); any failure is caught by the surrounding handler. -/
def decodeThreadRecord (r : ConversationThreadRedis) (now : DateTime) :
    Option ConversationThread :=
  (match r.messages with
   | .jarr js => decodeMessages now js
   | _ => none).bind fun msgs =>
  (decodeContentIdsField r.content_ids).bind fun cid =>
  (match r.usmos_json with
   | .jarr us => decodeStrList us
   | _ => none).bind fun usmos =>
  (fromisoformat r.created_at).bind fun created =>
  (fromisoformat r.updated_at).bind fun updated =>
  some { id := r.id, student_id := r.student_id, usmos := usmos, content_id := cid,
         messages := msgs, created_at := created, updated_at := updated }

/-- `get_thread`: an absent record is "not found" (`None`); any decode
failure is caught and also returned as `None`. -/
def get_thread (store : Store) (now : DateTime) (thread_id : String) :
    Option ConversationThread :=
  match storeLookup store thread_id with
  | none => none
  | some r => decodeThreadRecord r now

/-! ## TutorService (unconfigured, template fallback)

The repository probes for the optional model integration at startup; this
embedding models the service in its unconfigured state (`dspy_configured`
false), in which `generate_response` takes the deterministic template
branch. -/

/-- The scan of `reversed(thread.messages)` for the most recent
`StudentMessage`. -/
def lastStudentScan : List Message → Option StudentMessage
  | [] => none
  | .student s :: _ => some s
  | .tutor _ :: rest => lastStudentScan rest

def lastStudentMessage (msgs : List Message) : Option StudentMessage :=
  lastStudentScan msgs.reverse

/-- Python `x or default` on an optional string: the default replaces both a
missing and an empty (falsy) value. -/
def orFallback (o : Option String) (d : String) : String :=
  match o with
  | some s => if s = "" then d else s
  | none => d

/-- ASCII lowering, as `str.lower()` on the strings in play. -/
def lowerStr (s : String) : String := String.mk (s.data.map Char.toLower)

def isPrefixCh : List Char → List Char → Bool
  | [], _ => true
  | _ :: _, [] => false
  | a :: as, b :: bs => (a == b) && isPrefixCh as bs

def containsCh (needle : List Char) : List Char → Bool
  | [] => isPrefixCh needle []
  | c :: rest => isPrefixCh needle (c :: rest) || containsCh needle rest

/-- Python substring membership `needle in hay`. -/
def strInStr (needle hay : String) : Bool := containsCh needle.data hay.data

/-- `TutorService._generate_feedback`: fixed placeholder metrics, independent
of the response text. -/
def generate_feedback (response : String) : List (String × Rat) :=
  [("clarity", (0.9 : Rat)), ("helpfulness", (0.85 : Rat)), ("engagement", (0.8 : Rat))]

/-- `TutorService.generate_response` in the unconfigured state: a generic
introduction (default empty feedback) when no student message exists, else the
rule-based template selected by the last student message's action, with the
fixed feedback map. The current instant `now` enters only as the new
message's timestamp. -/
def generate_response (thread : ConversationThread) (content : ContentResponse)
    (now : DateTime) : TutorMessage :=
  match lastStudentMessage thread.messages with
  | none =>
    { conversation_id := thread.id
      content := "Let's discuss this problem: " ++ content.problem ++
        ". How would you approach solving it?"
      feedback := []
      timestamp := now }
  | some last_message =>
    let response : String :=
      match last_message.action with
      | .question =>
        "That's a good question about '" ++ content.problem ++ "'. The answer is '" ++
          content.answer ++ "'. Does that make sense?"
      | .answer =>
        if strInStr (lowerStr content.answer) (lowerStr last_message.content) then
          "That's correct! Well done."
        else
          "Not quite. The correct answer is '" ++ content.answer ++ "'. Let me explain: " ++
            orFallback content.explanation "Think about it carefully."
      | .chat =>
        "I understand your comment. Let's continue discussing this problem: " ++
          content.problem
      | .regenerate =>
        "Let me try to explain this differently. The problem is '" ++ content.problem ++
          "' and the answer is '" ++ content.answer ++ "'. " ++
          orFallback content.explanation ""
    { conversation_id := thread.id
      content := response
      feedback := generate_feedback response
      timestamp := now }

/-! ## Content collaborator (mock data) and orchestrator operations -/

def content123 : ContentResponse :=
  { content_id := "content123"
    usmos := ["MATH.ALG.1"]
    problem := "Solve for x: x + 5 = 10"
    answer := "x = 5"
    explanation := some "Subtract 5 from both sides to isolate x." }

def content456 : ContentResponse :=
  { content_id := "content456"
    usmos := ["MATH.ALG.2"]
    problem := "Solve the system of equations: x + y = 10, x - y = 4"
    answer := "x = 7, y = 3"
    explanation := some "Add the equations to eliminate y and solve for x, then substitute to find y." }

def content789 : ContentResponse :=
  { content_id := "content789"
    usmos := ["SCIENCE.PHYS.1"]
    problem := "A ball is thrown upward with an initial velocity of 20 m/s. How high will it go?"
    answer := "20.4 meters"
    explanation := some "Use the formula h = v²/(2g) where g = 9.8 m/s²." }

/-- `C3Service.get_mock_content`: one content item per requested tag that the
fixed table knows, in request order. -/
def get_mock_content : List String → List ContentResponse
  | [] => []
  | u :: rest =>
    (if u = "MATH.ALG.1" then [content123]
     else if u = "MATH.ALG.2" then [content456]
     else if u = "SCIENCE.PHYS.1" then [content789]
     else []) ++ get_mock_content rest

/-- `ConversationService.get_content`: fixed lookup by content id. -/
def get_content (content_id : String) : Option ContentResponse :=
  if content_id = "content123" then some content123
  else if content_id = "content456" then some content456
  else if content_id = "content789" then some content789
  else none

/-- `ConversationService.add_message`: reload the thread named by the
message, append, stamp `updated_at`, save; a missing thread raises
(`none`). -/
def add_message (store : Store) (now : DateTime) (m : Message) :
    Option (Store × ConversationThread) :=
  match get_thread store now m.conversationId with
  | none => none
  | some t =>
    let t' := { t with messages := t.messages ++ [m], updated_at := now }
    some (save_thread store t', t')

/-- `ConversationService.create_thread`: a fresh thread for the content with
empty message log, persisted immediately. The generated UUID and the current
instant are passed in explicitly. -/
def create_thread (store : Store) (newId : String) (now : DateTime)
    (student_id : String) (content : ContentResponse) : Store × ConversationThread :=
  let t : ConversationThread :=
    { id := newId
      student_id := student_id
      usmos := content.usmos
      content_id := content.content_id
      messages := []
      created_at := now
      updated_at := now }
  (save_thread store t, t)

/-- The per-content loop of `start_conversation`; `ids i` is the UUID drawn
for the i-th created thread. -/
def startLoop (now : DateTime) (student_id : String) (ids : Nat → String) :
    Store → Nat → List ContentResponse → Store × List ConversationThread
  | store, _, [] => (store, [])
  | store, i, c :: rest =>
    let p := create_thread store (ids i) now student_id c
    let q := startLoop now student_id ids p.1 (i + 1) rest
    (q.1, p.2 :: q.2)

/-- `ConversationService.start_conversation`: resolve content for the tags;
empty content is a valid outcome with no threads persisted; otherwise one
thread per content item, in order. -/
def start_conversation (store : Store) (ids : Nat → String) (now : DateTime)
    (student_id : String) (usmos : List String) :
    Store × List ConversationThread × List ContentResponse :=
  let contents := get_mock_content usmos
  if contents.isEmpty then (store, [], [])
  else
    let p := startLoop now student_id ids store 0 contents
    (p.1, p.2, contents)

/-- `ConversationService.regenerate_tutor_response`: load the thread and its
content; if the most recent message is a tutor message, drop it and persist
the shortened thread before generating; generate a replacement from the
(possibly trimmed) thread and append it via `add_message`. -/
def regenerate_tutor_response (store : Store) (now : DateTime) (thread_id : String) :
    Option (Store × TutorMessage) :=
  match get_thread store now thread_id with
  | none => none
  | some t =>
  match get_content t.content_id with
  | none => none
  | some content =>
    let trimmed :=
      match t.messages.getLast? with
      | some (.tutor _) =>
        let t' := { t with messages := t.messages.dropLast }
        (save_thread store t', t')
      | _ => (store, t)
    let response := generate_response trimmed.2 content now
    match add_message trimmed.1 now (.tutor response) with
    | none => none
    | some q => some (q.1, response)

/-- `ConversationService.handle_student_action`: load thread and content,
append the student message, then either delegate to the regenerate operation
(for `action == "regenerate"`) or generate and append a reply. -/
def handle_student_action (store : Store) (now : DateTime) (m : StudentMessage) :
    Option (Store × TutorMessage) :=
  match get_thread store now m.conversation_id with
  | none => none
  | some t =>
  match get_content t.content_id with
  | none => none
  | some content =>
  match add_message store now (.student m) with
  | none => none
  | some p =>
    match m.action with
    | .regenerate => regenerate_tutor_response p.1 now m.conversation_id
    | _ =>
      let response := generate_response p.2 content now
      match add_message p.1 now (.tutor response) with
      | none => none
      | some q => some (q.1, response)

/-- Well-formedness of the instants carried by a thread: they are real
`datetime` values (which every thread built by the service satisfies). -/
def WFThread (t : ConversationThread) : Prop :=
  ValidDateTime t.created_at ∧ ValidDateTime t.updated_at ∧
    ∀ m ∈ t.messages, ValidDateTime m.tsOf

instance (t : ConversationThread) : Decidable (WFThread t) :=
  inferInstanceAs (Decidable (_ ∧ _ ∧ _))

/-! ## Round-trip lemmas for the save / load pair -/

theorem decodeAction_toStr (a : StudentAction) : decodeAction (.jstr a.toStr) = some a := by
  cases a <;> rfl

theorem decodeStudent_encode (m : StudentMessage) (now : DateTime)
    (h : ValidDateTime m.timestamp) :
    decodeStudentMessage
      [("conversation_id", .jstr m.conversation_id), ("content", .jstr m.content),
       ("action", .jstr m.action.toStr), ("timestamp", .jstr (isoformat m.timestamp))]
      now = some m := by
  obtain ⟨cid, cont, act, ts⟩ := m
  simp only [ValidDateTime] at h
  simp [decodeStudentMessage, decodeStrField, decodeTimestampField, jLookup,
    decodeAction_toStr, fromisoformat_isoformat ⟨ts.year, ts.month, ts.day, ts.hour,
      ts.minute, ts.second, ts.microsecond⟩ h, optSomeBind]

theorem decodeFeedbackEntries_encode (fb : List (String × Rat)) :
    decodeFeedbackEntries (encodeFeedback fb) = some fb := by
  induction fb with
  | nil => rfl
  | cons p rest ih =>
    obtain ⟨k, q⟩ := p
    show decodeFeedbackEntries ((k, .jnum q) :: encodeFeedback rest) = _
    simp [decodeFeedbackEntries, ih]

theorem decodeTutor_encode (m : TutorMessage) (now : DateTime)
    (h : ValidDateTime m.timestamp) :
    decodeTutorMessage
      [("conversation_id", .jstr m.conversation_id), ("content", .jstr m.content),
       ("feedback", .jobj (encodeFeedback m.feedback)),
       ("timestamp", .jstr (isoformat m.timestamp))]
      now = some m := by
  obtain ⟨cid, cont, fb, ts⟩ := m
  simp only [ValidDateTime] at h
  simp [decodeTutorMessage, decodeStrField, decodeTimestampField, decodeFeedbackField,
    jLookup, decodeFeedbackEntries_encode, fromisoformat_isoformat ⟨ts.year, ts.month,
      ts.day, ts.hour, ts.minute, ts.second, ts.microsecond⟩ h, optSomeBind]

theorem decodeMessage_encode (m : Message) (now : DateTime) (h : ValidDateTime m.tsOf) :
    decodeMessage (encodeMessage m) now = some m := by
  cases m with
  | student s =>
    simp only [Message.tsOf] at h
    simp [decodeMessage, encodeMessage, jLookup, decodeStudent_encode s now h]
  | tutor t =>
    simp only [Message.tsOf] at h
    simp [decodeMessage, encodeMessage, jLookup, decodeTutor_encode t now h]

theorem decodeMessages_encode (msgs : List Message) (now : DateTime)
    (h : ∀ m ∈ msgs, ValidDateTime m.tsOf) :
    decodeMessages now (msgs.map encodeMessage) = some msgs := by
  induction msgs with
  | nil => rfl
  | cons m rest ih =>
    have hm : ValidDateTime m.tsOf := h m (by simp)
    have hrest : ∀ x ∈ rest, ValidDateTime x.tsOf := fun x hx => h x (by simp [hx])
    simp only [List.map_cons, decodeMessages, decodeMessage_encode m now hm,
      ih hrest, optSomeBind]
    rfl

theorem decodeStrList_map (xs : List String) : decodeStrList (xs.map .jstr) = some xs := by
  induction xs with
  | nil => rfl
  | cons s rest ih => simp [decodeStrList, ih]

theorem decodeThreadRecord_save (t : ConversationThread) (now : DateTime)
    (h : WFThread t) : decodeThreadRecord (save_thread_record t) now = some t := by
  obtain ⟨h1, h2, h3⟩ := h
  obtain ⟨tid, sid, usmos, cid, msgs, ca, ua⟩ := t
  simp only [WFThread] at h3
  simp [decodeThreadRecord, save_thread_record, decodeMessages_encode msgs now h3,
    decodeContentIdsField, decodeStrList_map, fromisoformat_isoformat _ h1,
    fromisoformat_isoformat _ h2, optSomeBind]

theorem get_thread_save (store : Store) (t : ConversationThread) (now : DateTime)
    (h : WFThread t) : get_thread (save_thread store t) now t.id = some t := by
  simp [get_thread, save_thread, storeLookup, decodeThreadRecord_save t now h]

theorem add_message_after_save (store : Store) (t : ConversationThread) (now : DateTime)
    (m : Message) (hwf : WFThread t) (hm : m.conversationId = t.id) :
    add_message (save_thread store t) now m =
      some (save_thread (save_thread store t)
              { t with messages := t.messages ++ [m], updated_at := now },
            { t with messages := t.messages ++ [m], updated_at := now }) := by
  unfold add_message
  rw [hm, get_thread_save store t now hwf]

/-! ## Example values used by witnesses -/

def dtEx : DateTime := ⟨2025, 5, 22, 12, 0, 0, 0⟩

def dtEx2 : DateTime := ⟨2025, 5, 22, 12, 1, 0, 500000⟩

def sMsgEx : StudentMessage :=
  { conversation_id := "conv1", content := "How do I solve this equation?",
    action := .question, timestamp := dtEx }

def tMsgEx : TutorMessage :=
  { conversation_id := "conv1", content := "Isolate the variable.",
    feedback := [("clarity", (0.9 : Rat))], timestamp := dtEx2 }

def threadEx : ConversationThread :=
  { id := "conv1", student_id := "student123", usmos := ["MATH.ALG.1"],
    content_id := "content123", messages := [.student sMsgEx, .tutor tMsgEx],
    created_at := dtEx, updated_at := dtEx }

/-! ## Claim C1: save / load round-trip -/

/-- C1: for every ConversationThread holding a non-empty mix of student and
tutor messages (well-formed instants), saving it and loading it back by its id
reproduces an equal thread: same id, student_id, usmos, content_id,
created_at / updated_at, and the same message sequence with variants, fields
and timestamps preserved through the ISO-8601 string encoding. -/
theorem claim1_roundtrip (store : Store) (t : ConversationThread) (now : DateTime)
    (hwf : WFThread t)
    (hstu : ∃ m ∈ t.messages, m.isStudentB = true)
    (htut : ∃ m ∈ t.messages, m.isStudentB = false) :
    get_thread (save_thread store t) now t.id = some t :=
  get_thread_save store t now hwf

theorem claim1_roundtrip_witness :
    get_thread (save_thread [] threadEx) dtEx threadEx.id = some threadEx :=
  claim1_roundtrip [] threadEx dtEx (by decide) (by decide) (by decide)

/-! ## Claim C2: the decode discriminant -/

/-- Whether a persisted message mapping carries a non-null `action` value. -/
def hasNonNullAction (fields : List (String × JVal)) : Bool :=
  match jLookup "action" fields with
  | none => false
  | some .jnull => false
  | some _ => true

/-- C2: every message mapping that decodes during load yields a
StudentMessage exactly when the mapping carries a non-null `action` field,
and a TutorMessage otherwise. -/
theorem claim2_discriminant (fields : List (String × JVal)) (now : DateTime) (m : Message)
    (h : decodeMessage (.jobj fields) now = some m) :
    (m.isStudentB = true ↔ hasNonNullAction fields = true) := by
  unfold hasNonNullAction
  cases hl : jLookup "action" fields with
  | none =>
    rw [decodeMessage, hl] at h
    rcases Option.map_eq_some'.mp h with ⟨tm, _, heq⟩
    subst heq
    simp [Message.isStudentB]
  | some v =>
    rw [decodeMessage, hl] at h
    cases v with
    | jnull =>
      rcases Option.map_eq_some'.mp h with ⟨tm, _, heq⟩
      subst heq
      simp [Message.isStudentB]
    | jbool b =>
      rcases Option.map_eq_some'.mp h with ⟨sm, _, heq⟩
      subst heq
      simp [Message.isStudentB]
    | jnum q =>
      rcases Option.map_eq_some'.mp h with ⟨sm, _, heq⟩
      subst heq
      simp [Message.isStudentB]
    | jstr s =>
      rcases Option.map_eq_some'.mp h with ⟨sm, _, heq⟩
      subst heq
      simp [Message.isStudentB]
    | jarr xs =>
      rcases Option.map_eq_some'.mp h with ⟨sm, _, heq⟩
      subst heq
      simp [Message.isStudentB]
    | jobj fs =>
      rcases Option.map_eq_some'.mp h with ⟨sm, _, heq⟩
      subst heq
      simp [Message.isStudentB]

def fieldsEx : List (String × JVal) :=
  [("conversation_id", .jstr "conv1"), ("content", .jstr "hi"),
   ("action", .jstr "question"), ("timestamp", .jstr "2025-05-22T12:00:00+00:00")]

def sMsg2Ex : StudentMessage :=
  { conversation_id := "conv1", content := "hi", action := .question, timestamp := dtEx }

theorem claim2_discriminant_witness :
    ((Message.student sMsg2Ex).isStudentB = true ↔ hasNonNullAction fieldsEx = true) :=
  claim2_discriminant fieldsEx dtEx (Message.student sMsg2Ex) rfl

/-! ## Claim C6: start_conversation -/

/-- The thread `create_thread` builds for the i-th content item during
`start_conversation`. -/
def new_thread_for (ids : Nat → String) (now : DateTime) (student_id : String) :
    Nat × ContentResponse → ConversationThread :=
  fun p =>
    { id := ids p.1
      student_id := student_id
      usmos := p.2.usmos
      content_id := p.2.content_id
      messages := []
      created_at := now
      updated_at := now }

theorem startLoop_spec (now : DateTime) (sid : String) (ids : Nat → String) :
    ∀ (cs : List ContentResponse) (store : Store) (i : Nat),
    startLoop now sid ids store i cs =
      ((((cs.enumFrom i).map (new_thread_for ids now sid)).map
          (fun t => (t.id, save_thread_record t))).reverse ++ store,
        (cs.enumFrom i).map (new_thread_for ids now sid)) := by
  intro cs
  induction cs with
  | nil => intro store i; simp [startLoop]
  | cons c rest ih =>
    intro store i
    simp only [startLoop, create_thread, save_thread, ih, List.enumFrom,
      List.map_cons, List.reverse_cons, List.append_assoc, List.cons_append,
      List.nil_append]
    rfl

/-- C6: for every student id and tag list, `start_conversation` returns
`([], [])` and leaves the store untouched when no content resolves, and
otherwise creates, persists and returns exactly one new thread per resolved
content item, in order, each with that content's own tag list as `usmos`,
that content's id as `content_id`, and an empty message log. -/
theorem claim6_start_conversation (store : Store) (ids : Nat → String) (now : DateTime)
    (student_id : String) (usmos : List String) :
    start_conversation store ids now student_id usmos =
      ((((get_mock_content usmos).enum.map (new_thread_for ids now student_id)).map
          (fun t => (t.id, save_thread_record t))).reverse ++ store,
        (get_mock_content usmos).enum.map (new_thread_for ids now student_id),
        get_mock_content usmos) := by
  simp only [start_conversation]
  by_cases hempty : (get_mock_content usmos).isEmpty
  · rw [if_pos hempty]
    have hnil : get_mock_content usmos = [] := by
      cases hcs : get_mock_content usmos with
      | nil => rfl
      | cons a b => rw [hcs] at hempty; simp [List.isEmpty] at hempty
    rw [hnil]
    simp [List.enum]
  · rw [if_neg hempty]
    rw [startLoop_spec now student_id ids (get_mock_content usmos) store 0]
    rfl

/-! ## Claims C8, C9, C10: the unconfigured response generator -/

def threadC8 : ConversationThread :=
  { id := "conv8", student_id := "s8", usmos := ["MATH.ALG.1"],
    content_id := "content123", messages := [.student sMsgEx],
    created_at := dtEx, updated_at := dtEx }

/-- C8: on the algebra content item, with the last student message an
`action = "question"` one, the unconfigured generator's reply text contains
both the literal problem string and the literal answer string. -/
theorem claim8_fallback_question :
    strInStr "Solve for x: x + 5 = 10" (generate_response threadC8 content123 dtEx).content
        = true ∧
    strInStr "x = 5" (generate_response threadC8 content123 dtEx).content = true := by
  constructor <;> decide

/-- C9: the unconfigured generator is total (the embedding is a function that
always returns a TutorMessage) and deterministic: on the same thread and
content, two invocations at different instants produce the same reply text
and the same feedback map; only the timestamp varies. -/
theorem claim9_deterministic (thread : ConversationThread) (content : ContentResponse)
    (n1 n2 : DateTime) :
    (generate_response thread content n1).content =
        (generate_response thread content n2).content ∧
    (generate_response thread content n1).feedback =
        (generate_response thread content n2).feedback := by
  unfold generate_response
  cases lastStudentMessage thread.messages <;> simp

theorem lastStudentScan_none_iff (l : List Message) :
    lastStudentScan l = none ↔ ∀ m ∈ l, m.isStudentB = false := by
  induction l with
  | nil => simp [lastStudentScan]
  | cons m rest ih =>
    cases m with
    | student s => simp [lastStudentScan, Message.isStudentB]
    | tutor t => simp [lastStudentScan, Message.isStudentB, ih]

theorem lastStudentMessage_none_iff (l : List Message) :
    lastStudentMessage l = none ↔ ∀ m ∈ l, m.isStudentB = false := by
  unfold lastStudentMessage
  rw [lastStudentScan_none_iff]
  constructor
  · intro h m hm
    exact h m (List.mem_reverse.mpr hm)
  · intro h m hm
    exact h m (List.mem_reverse.mp hm)

/-- C10: a thread with no student message gets the introduction reply with an
empty feedback map; a thread containing a student message gets the fixed
feedback map clarity 0.9, helpfulness 0.85, engagement 0.8. -/
theorem claim10_feedback (thread : ConversationThread) (content : ContentResponse)
    (now : DateTime) :
    ((∀ m ∈ thread.messages, m.isStudentB = false) →
      (generate_response thread content now).feedback = []) ∧
    ((∃ m ∈ thread.messages, m.isStudentB = true) →
      (generate_response thread content now).feedback =
        [("clarity", (0.9 : Rat)), ("helpfulness", (0.85 : Rat)),
         ("engagement", (0.8 : Rat))]) := by
  constructor
  · intro h
    have hn : lastStudentMessage thread.messages = none :=
      (lastStudentMessage_none_iff _).mpr h
    unfold generate_response
    rw [hn]
  · rintro ⟨m, hm, hms⟩
    cases hsome : lastStudentMessage thread.messages with
    | none =>
      exfalso
      have hfalse := (lastStudentMessage_none_iff _).mp hsome m hm
      rw [hms] at hfalse
      exact Bool.noConfusion hfalse
    | some s =>
      unfold generate_response
      rw [hsome]
      rfl

def threadTutorOnly : ConversationThread :=
  { id := "conv10", student_id := "s10", usmos := ["MATH.ALG.1"],
    content_id := "content123", messages := [.tutor tMsgEx],
    created_at := dtEx, updated_at := dtEx }

theorem claim10_feedback_witness :
    (generate_response threadTutorOnly content123 dtEx).feedback = [] ∧
    (generate_response threadC8 content123 dtEx).feedback =
      [("clarity", (0.9 : Rat)), ("helpfulness", (0.85 : Rat)),
       ("engagement", (0.8 : Rat))] :=
  ⟨(claim10_feedback threadTutorOnly content123 dtEx).1 (by decide),
   (claim10_feedback threadC8 content123 dtEx).2 (by decide)⟩

/-! ## Claims C3 and C5: regenerate semantics -/

/-- The trim `regenerate_tutor_response` performs on the loaded message log:
drop the last message exactly when it is a tutor message. -/
def trimTail (msgs : List Message) : List Message :=
  match msgs.getLast? with
  | some (.tutor _) => msgs.dropLast
  | _ => msgs

/-- The thread with its trailing tutor message removed (the in-memory pop
before the trim save). -/
def dropTail (t : ConversationThread) : ConversationThread :=
  { t with messages := t.messages.dropLast }

/-- The thread after a freshly generated response has been appended by
`add_message`. -/
def appendResponse (t1 : ConversationThread) (c : ContentResponse) (now : DateTime) :
    ConversationThread :=
  { t1 with messages := t1.messages ++ [.tutor (generate_response t1 c now)],
            updated_at := now }

theorem generate_response_cid (thread : ConversationThread) (content : ContentResponse)
    (now : DateTime) :
    (generate_response thread content now).conversation_id = thread.id := by
  unfold generate_response
  cases lastStudentMessage thread.messages <;> rfl

theorem generate_response_ts (thread : ConversationThread) (content : ContentResponse)
    (now : DateTime) :
    (generate_response thread content now).timestamp = now := by
  unfold generate_response
  cases lastStudentMessage thread.messages <;> rfl

theorem WFThread_append_msg (t1 : ConversationThread) (m : Message) (now : DateTime)
    (hwf : WFThread t1) (hnow : ValidDateTime now) (hm : ValidDateTime m.tsOf) :
    WFThread { t1 with messages := t1.messages ++ [m], updated_at := now } := by
  obtain ⟨h1, h2, h3⟩ := hwf
  refine ⟨h1, hnow, ?_⟩
  intro x hx
  rcases List.mem_append.mp hx with hx | hx
  · exact h3 x hx
  · rw [List.mem_singleton] at hx
    subst hx
    exact hm

theorem WFThread_appendResponse (t1 : ConversationThread) (c : ContentResponse)
    (now : DateTime) (hwf : WFThread t1) (hnow : ValidDateTime now) :
    WFThread (appendResponse t1 c now) :=
  WFThread_append_msg t1 (.tutor (generate_response t1 c now)) now hwf hnow
    (by simp only [Message.tsOf, generate_response_ts]; exact hnow)

theorem WFThread_dropTail (t : ConversationThread) (hwf : WFThread t) :
    WFThread (dropTail t) := by
  obtain ⟨h1, h2, h3⟩ := hwf
  exact ⟨h1, h2, fun x hx => h3 x ((List.dropLast_sublist t.messages).subset hx)⟩

theorem add_message_eq (store : Store) (now : DateTime) (m : Message)
    (t1 : ConversationThread)
    (hget : get_thread store now m.conversationId = some t1) :
    add_message store now m =
      some (save_thread store { t1 with messages := t1.messages ++ [m], updated_at := now },
            { t1 with messages := t1.messages ++ [m], updated_at := now }) := by
  unfold add_message
  rw [hget]

/-- The `add_message` call that appends the freshly generated response, in
terms of `appendResponse`. -/
theorem add_response_eq (store : Store) (now : DateTime) (t1 : ConversationThread)
    (c : ContentResponse) (tid : String)
    (hid : t1.id = tid)
    (hget : get_thread store now tid = some t1) :
    add_message store now (.tutor (generate_response t1 c now)) =
      some (save_thread store (appendResponse t1 c now), appendResponse t1 c now) := by
  have hcid : (Message.tutor (generate_response t1 c now)).conversationId = tid := by
    simp only [Message.conversationId, generate_response_cid]
    exact hid
  exact add_message_eq store now (.tutor (generate_response t1 c now)) t1
    (by rw [hcid]; exact hget)

/-- Behavior of `regenerate_tutor_response` on a stored thread that decodes
and whose content resolves: it returns the freshly generated tutor message,
and the stored thread afterwards is the loaded one with the trim applied and
the new tutor message appended. -/
theorem regen_spec (store : Store) (now : DateTime) (tid : String)
    (r : ConversationThreadRedis) (t : ConversationThread) (c : ContentResponse)
    (hr : storeLookup store tid = some r)
    (hd : decodeThreadRecord r now = some t)
    (hid : t.id = tid)
    (hwf : WFThread t)
    (hnow : ValidDateTime now)
    (hc : get_content t.content_id = some c) :
    ∃ store2 tm,
      regenerate_tutor_response store now tid = some (store2, tm) ∧
      get_thread store2 now tid =
        some { t with messages := trimTail t.messages ++ [.tutor tm],
                      updated_at := now } := by
  have hget : get_thread store now tid = some t := by
    unfold get_thread
    rw [hr]
    exact hd
  cases hlast : t.messages.getLast? with
  | none =>
    have htrim : trimTail t.messages = t.messages := by
      simp [trimTail, hlast]
    have hadd := add_response_eq store now t c tid hid hget
    refine ⟨save_thread store (appendResponse t c now), generate_response t c now, ?_, ?_⟩
    · simp only [regenerate_tutor_response, hget, hc, hlast, hadd]
    · rw [htrim]
      show get_thread (save_thread store (appendResponse t c now)) now tid =
        some (appendResponse t c now)
      rw [← hid]
      exact get_thread_save store (appendResponse t c now) now
        (WFThread_appendResponse t c now hwf hnow)
  | some m0 =>
    cases m0 with
    | student ms =>
      have htrim : trimTail t.messages = t.messages := by
        simp [trimTail, hlast]
      have hadd := add_response_eq store now t c tid hid hget
      refine ⟨save_thread store (appendResponse t c now), generate_response t c now, ?_, ?_⟩
      · simp only [regenerate_tutor_response, hget, hc, hlast, hadd]
      · rw [htrim]
        show get_thread (save_thread store (appendResponse t c now)) now tid =
          some (appendResponse t c now)
        rw [← hid]
        exact get_thread_save store (appendResponse t c now) now
          (WFThread_appendResponse t c now hwf hnow)
    | tutor mt =>
      have htrim : trimTail t.messages = t.messages.dropLast := by
        simp [trimTail, hlast]
      have hwfd : WFThread (dropTail t) := WFThread_dropTail t hwf
      have hgetd : get_thread (save_thread store (dropTail t)) now tid =
          some (dropTail t) := by
        rw [← hid]
        exact get_thread_save store (dropTail t) now hwfd
      have hadd := add_response_eq (save_thread store (dropTail t)) now (dropTail t) c tid
        hid hgetd
      refine ⟨save_thread (save_thread store (dropTail t))
          (appendResponse (dropTail t) c now),
        generate_response (dropTail t) c now, ?_, ?_⟩
      · simp only [regenerate_tutor_response, hget, hc, hlast]
        show (match add_message (save_thread store (dropTail t)) now
              (Message.tutor (generate_response (dropTail t) c now)) with
          | none => none
          | some q => some (q.1, generate_response (dropTail t) c now)) =
          some (save_thread (save_thread store (dropTail t))
              (appendResponse (dropTail t) c now),
            generate_response (dropTail t) c now)
        rw [hadd]
      · rw [htrim]
        show get_thread (save_thread (save_thread store (dropTail t))
            (appendResponse (dropTail t) c now)) now tid =
          some (appendResponse (dropTail t) c now)
        rw [← hid]
        exact get_thread_save (save_thread store (dropTail t))
          (appendResponse (dropTail t) c now) now
          (WFThread_appendResponse (dropTail t) c now hwfd hnow)

theorem trimTail_tutor_length (msgs : List Message) (mt : TutorMessage) (x : Message)
    (h : msgs.getLast? = some (.tutor mt)) :
    (trimTail msgs ++ [x]).length = msgs.length := by
  have hne : msgs ≠ [] := by
    intro hnil
    rw [hnil] at h
    simp at h
  have hpos : 0 < msgs.length := List.length_pos.mpr hne
  simp only [trimTail, h, List.length_append, List.length_dropLast, List.length_singleton]
  omega

theorem trimTail_keep (msgs : List Message)
    (h : msgs.getLast? = none ∨ ∃ ms, msgs.getLast? = some (.student ms)) :
    trimTail msgs = msgs := by
  rcases h with h | ⟨ms, h⟩ <;> simp [trimTail, h]

/-- C3: for every stored thread that decodes and whose content resolves,
`regenerate_tutor_response` removes the last message exactly when it is a
TutorMessage (persisting the removal) and appends exactly one new
TutorMessage; so the stored message count is unchanged when the last message
was a tutor one, and grows by one when the log was empty or ended in a
student message. -/
theorem claim3_regenerate (store : Store) (now : DateTime) (tid : String)
    (r : ConversationThreadRedis) (t : ConversationThread) (c : ContentResponse)
    (hr : storeLookup store tid = some r)
    (hd : decodeThreadRecord r now = some t)
    (hid : t.id = tid)
    (hwf : WFThread t)
    (hnow : ValidDateTime now)
    (hc : get_content t.content_id = some c) :
    ∃ store2 tm,
      regenerate_tutor_response store now tid = some (store2, tm) ∧
      get_thread store2 now tid =
        some { t with messages := trimTail t.messages ++ [.tutor tm],
                      updated_at := now } ∧
      (∀ mt, t.messages.getLast? = some (.tutor mt) →
        (trimTail t.messages ++ [Message.tutor tm]).length = t.messages.length) ∧
      ((t.messages.getLast? = none ∨ ∃ ms, t.messages.getLast? = some (.student ms)) →
        (trimTail t.messages ++ [Message.tutor tm]).length = t.messages.length + 1) := by
  obtain ⟨store2, tm, h1, h2⟩ := regen_spec store now tid r t c hr hd hid hwf hnow hc
  refine ⟨store2, tm, h1, h2, ?_, ?_⟩
  · intro mt hmt
    exact trimTail_tutor_length t.messages mt (.tutor tm) hmt
  · intro hkeep
    rw [trimTail_keep t.messages hkeep]
    simp

theorem claim3_regenerate_witness :
    ∃ store2 tm,
      regenerate_tutor_response [("conv1", save_thread_record threadEx)] dtEx "conv1" =
        some (store2, tm) ∧
      get_thread store2 dtEx "conv1" =
        some { threadEx with
                 messages := trimTail threadEx.messages ++ [.tutor tm],
                 updated_at := dtEx } ∧
      (∀ mt, threadEx.messages.getLast? = some (.tutor mt) →
        (trimTail threadEx.messages ++ [Message.tutor tm]).length =
          threadEx.messages.length) ∧
      ((threadEx.messages.getLast? = none ∨
          ∃ ms, threadEx.messages.getLast? = some (.student ms)) →
        (trimTail threadEx.messages ++ [Message.tutor tm]).length =
          threadEx.messages.length + 1) :=
  claim3_regenerate [("conv1", save_thread_record threadEx)] dtEx "conv1"
    (save_thread_record threadEx) threadEx content123 rfl
    (decodeThreadRecord_save threadEx dtEx (by decide)) rfl (by decide) (by decide) rfl

/-- The thread after `add_message` has appended an incoming student
message. -/
def appendStudent (t : ConversationThread) (m : StudentMessage) (now : DateTime) :
    ConversationThread :=
  { t with messages := t.messages ++ [.student m], updated_at := now }

/-- C5: `handle_student_action` on a "regenerate" student message first
appends that student message, so the delegated regenerate operation sees a
StudentMessage as the last message and removes nothing; the stored log ends
as the old one plus the regenerate request plus one new TutorMessage — the
count grows by exactly two and no message is deleted. -/
theorem claim5_handle_regenerate (store : Store) (now : DateTime)
    (r : ConversationThreadRedis) (t : ConversationThread) (c : ContentResponse)
    (m : StudentMessage)
    (hr : storeLookup store m.conversation_id = some r)
    (hd : decodeThreadRecord r now = some t)
    (hid : t.id = m.conversation_id)
    (hwf : WFThread t)
    (hnow : ValidDateTime now)
    (hmts : ValidDateTime m.timestamp)
    (hc : get_content t.content_id = some c)
    (ha : m.action = .regenerate) :
    ∃ store2 tm,
      handle_student_action store now m = some (store2, tm) ∧
      get_thread store2 now m.conversation_id =
        some { t with
                 messages := t.messages ++ [.student m, .tutor tm],
                 updated_at := now } ∧
      (t.messages ++ [Message.student m, Message.tutor tm]).length =
        t.messages.length + 2 := by
  have hget : get_thread store now m.conversation_id = some t := by
    unfold get_thread
    rw [hr]
    exact hd
  have hadd : add_message store now (.student m) =
      some (save_thread store (appendStudent t m now), appendStudent t m now) :=
    add_message_eq store now (.student m) t hget
  have hwf1 : WFThread (appendStudent t m now) :=
    WFThread_append_msg t (.student m) now hwf hnow
      (by simp only [Message.tsOf]; exact hmts)
  have hr1 : storeLookup (save_thread store (appendStudent t m now)) m.conversation_id =
      some (save_thread_record (appendStudent t m now)) := by
    simp only [save_thread, storeLookup]
    rw [if_pos (show m.conversation_id = (appendStudent t m now).id from hid.symm)]
  have hd1 : decodeThreadRecord (save_thread_record (appendStudent t m now)) now =
      some (appendStudent t m now) :=
    decodeThreadRecord_save (appendStudent t m now) now hwf1
  obtain ⟨store2, tm, hreg, hgt⟩ := regen_spec (save_thread store (appendStudent t m now))
    now m.conversation_id (save_thread_record (appendStudent t m now))
    (appendStudent t m now) c hr1 hd1
    (show (appendStudent t m now).id = m.conversation_id from hid) hwf1 hnow
    (show get_content (appendStudent t m now).content_id = some c from hc)
  have hlast1 : (appendStudent t m now).messages.getLast? = some (Message.student m) := by
    show (t.messages ++ [Message.student m]).getLast? = some (Message.student m)
    simp
  have htrim1 : trimTail (appendStudent t m now).messages = (appendStudent t m now).messages := by
    simp [trimTail, hlast1]
  rw [htrim1] at hgt
  refine ⟨store2, tm, ?_, ?_, ?_⟩
  · simp only [handle_student_action, hget, hc, hadd, ha]
    exact hreg
  · have hassoc : t.messages ++ [Message.student m, Message.tutor tm] =
        (t.messages ++ [Message.student m]) ++ [Message.tutor tm] := by
      simp
    rw [hassoc]
    exact hgt
  · simp [List.length_append]

def sRegenEx : StudentMessage :=
  { conversation_id := "conv1", content := "please try again",
    action := .regenerate, timestamp := dtEx2 }

theorem claim5_handle_regenerate_witness :
    ∃ store2 tm,
      handle_student_action [("conv1", save_thread_record threadEx)] dtEx sRegenEx =
        some (store2, tm) ∧
      get_thread store2 dtEx sRegenEx.conversation_id =
        some { threadEx with
                 messages := threadEx.messages ++ [.student sRegenEx, .tutor tm],
                 updated_at := dtEx } ∧
      (threadEx.messages ++ [Message.student sRegenEx, Message.tutor tm]).length =
        threadEx.messages.length + 2 :=
  claim5_handle_regenerate [("conv1", save_thread_record threadEx)] dtEx
    (save_thread_record threadEx) threadEx content123 sRegenEx rfl
    (decodeThreadRecord_save threadEx dtEx (by decide)) rfl (by decide) (by decide)
    (by decide) rfl rfl

/-! ## Claim C7: content_ids decoding (corrected)

The code sets `content_id = content_ids[0] if content_ids else None` and then
constructs the pydantic thread, whose `content_id` is a required string
field: an empty decoded sequence therefore fails validation inside
`get_thread`, the failure is caught, and the load returns `None` — it does
not return a thread with the reference absent. -/

def rEx7good : ConversationThreadRedis :=
  { id := "t7"
    student_id := "s7"
    usmos_json := .jarr [.jstr "MATH.ALG.1"]
    content_ids := .jarr [.jstr "content123"]
    messages := .jarr []
    created_at := "2025-05-22T12:00:00+00:00"
    updated_at := "2025-05-22T12:00:00+00:00"
    is_active := true }

def rEx7 : ConversationThreadRedis :=
  { id := "t7"
    student_id := "s7"
    usmos_json := .jarr [.jstr "MATH.ALG.1"]
    content_ids := .jarr []
    messages := .jarr []
    created_at := "2025-05-22T12:00:00+00:00"
    updated_at := "2025-05-22T12:00:00+00:00"
    is_active := true }

def tEx7 : ConversationThread :=
  { id := "t7", student_id := "s7", usmos := ["MATH.ALG.1"],
    content_id := "content123", messages := [],
    created_at := dtEx, updated_at := dtEx }

/-- C7 counterexample: a record whose `content_ids` sequence is empty but is
otherwise fully decodable (witnessed by the same record with a one-element
sequence decoding successfully) makes `get_thread` return `none` instead of
a thread with the content reference absent — refuting the claim's "while
still returning the thread's remaining fields successfully". -/
theorem claim7_counterexample :
    get_thread [("t7", rEx7)] dtEx "t7" = none ∧
    decodeThreadRecord rEx7good dtEx = some tEx7 :=
  ⟨rfl, rfl⟩

/-- C7 (amended): load decodes `content_ids` and takes the thread's single
`content_id` from the first element when the sequence is non-empty (and a
string); when the sequence is empty the absent reference fails the required
field validation, so the load returns none rather than a thread. -/
theorem claim7_content_id (r : ConversationThreadRedis) (now : DateTime) :
    (∀ cid rest, r.content_ids = JVal.jarr (JVal.jstr cid :: rest) →
      ∀ t, decodeThreadRecord r now = some t → t.content_id = cid) ∧
    (r.content_ids = JVal.jarr [] → decodeThreadRecord r now = none) := by
  constructor
  · intro cid rest hcontent t ht
    unfold decodeThreadRecord at ht
    rw [hcontent] at ht
    rw [show decodeContentIdsField (JVal.jarr (JVal.jstr cid :: rest)) = some cid
      from rfl] at ht
    cases hm : (match r.messages with | JVal.jarr js => decodeMessages now js | _ => none) with
    | none =>
      rw [hm] at ht
      simp only [optNoneBind] at ht
      exact Option.noConfusion ht
    | some msgs =>
      rw [hm] at ht
      simp only [optSomeBind] at ht
      cases hu : (match r.usmos_json with | JVal.jarr us => decodeStrList us | _ => none) with
      | none =>
        rw [hu] at ht
        simp only [optNoneBind] at ht
        exact Option.noConfusion ht
      | some usmos =>
        rw [hu] at ht
        simp only [optSomeBind] at ht
        cases hcr : fromisoformat r.created_at with
        | none =>
          rw [hcr] at ht
          simp only [optNoneBind] at ht
          exact Option.noConfusion ht
        | some created =>
          rw [hcr] at ht
          simp only [optSomeBind] at ht
          cases hup : fromisoformat r.updated_at with
          | none =>
            rw [hup] at ht
            simp only [optNoneBind] at ht
            exact Option.noConfusion ht
          | some updated =>
            rw [hup] at ht
            simp only [optSomeBind] at ht
            injection ht with ht
            subst ht
            rfl
  · intro hcontent
    unfold decodeThreadRecord
    rw [hcontent]
    rw [show decodeContentIdsField (JVal.jarr []) = none from rfl]
    cases hm : (match r.messages with | JVal.jarr js => decodeMessages now js | _ => none) with
    | none => rfl
    | some msgs => rfl

theorem claim7_content_id_witness :
    tEx7.content_id = "content123" ∧ decodeThreadRecord rEx7 dtEx = none :=
  ⟨(claim7_content_id rEx7good dtEx).1 "content123" [] rfl tEx7 rfl,
   (claim7_content_id rEx7 dtEx).2 rfl⟩

/-! ## Claim C4: decode failures on load (corrected)

`get_thread` wraps the whole load in a handler that logs the cause and
returns `None`: a record that fails to decode produces exactly the same
result as an absent record. There is no distinct `CorruptRecordError`
surfaced to the caller. -/

def rEx4 : ConversationThreadRedis :=
  { id := "t4"
    student_id := "s4"
    usmos_json := .jarr [.jstr "MATH.ALG.1"]
    content_ids := .jarr [.jstr "content123"]
    messages := .jarr [.jobj [("conversation_id", .jstr "t4"), ("content", .jstr "hi"),
      ("action", .jstr "bogus"), ("timestamp", .jstr "2025-05-22T12:00:00+00:00")]]
    created_at := "2025-05-22T12:00:00+00:00"
    updated_at := "2025-05-22T12:00:00+00:00"
    is_active := true }

def rEx4good : ConversationThreadRedis :=
  { id := "t4"
    student_id := "s4"
    usmos_json := .jarr [.jstr "MATH.ALG.1"]
    content_ids := .jarr [.jstr "content123"]
    messages := .jarr []
    created_at := "2025-05-22T12:00:00+00:00"
    updated_at := "2025-05-22T12:00:00+00:00"
    is_active := true }

def tEx4 : ConversationThread :=
  { id := "t4", student_id := "s4", usmos := ["MATH.ALG.1"],
    content_id := "content123", messages := [],
    created_at := dtEx, updated_at := dtEx }

/-- C4 counterexample: a stored record whose only defect is an unknown
`action` enum value (the same record decodes once the bad message is removed)
makes `get_thread` return `none` — exactly the same observable result as an
absent record, refuting "fails with a CorruptRecordError, distinct from the
not-found result". -/
theorem claim4_counterexample :
    get_thread [("t4", rEx4)] dtEx "t4" = none ∧
    get_thread [] dtEx "t4" = none ∧
    decodeThreadRecord rEx4good dtEx = some tEx4 :=
  ⟨rfl, rfl, rfl⟩

/-- C4 (amended): for every persisted record whose fields fail to decode
(malformed shapes, unparsable timestamp, unknown action value), the load
returns none — indistinguishable to the caller from the not-found result for
an absent record (the cause is only logged) — and never returns a partially
decoded thread. -/
theorem claim4_decode_failure (store : Store) (tid : String) (now : DateTime)
    (r : ConversationThreadRedis)
    (hr : storeLookup store tid = some r)
    (hd : decodeThreadRecord r now = none) :
    get_thread store now tid = none ∧ get_thread [] now tid = none := by
  constructor
  · unfold get_thread
    rw [hr]
    exact hd
  · rfl

theorem claim4_decode_failure_witness :
    get_thread [("t4", rEx4)] dtEx "t4" = none ∧ get_thread [] dtEx "t4" = none :=
  claim4_decode_failure [("t4", rEx4)] "t4" dtEx rEx4 rfl rfl
